import Mathlib

/-!
Verification of the hope-protocol redistribution bot.

The development is a shallow embedding of the TypeScript sources:
`bot/src/fees.ts` (fee claiming, holder scanning, PnL ranking, winner
cooldown), `bot/src/config.ts`, `bot/src/distribute.ts`, and the cycle
driver `bot/src/index.ts`.

Modelling conventions:
- SOL and token amounts are exact rationals; the JavaScript number
  arithmetic of the source is modelled as exact arithmetic.
- The JavaScript `Map` used for the winner cooldown is modelled as an
  association list whose lookup takes the most recently set binding.
- Network effects (RPC reads, transaction submission, price fetches,
  swap execution) are modelled by explicit environment records carrying
  the values the collaborators would return and Booleans carrying
  whether each submission confirms.
-/

namespace Hope

/-! Constants from `fees.ts`, `holders.ts` and `config.ts`. -/

/-- `RESERVE_SOL` in `fees.ts`: SOL kept back for gas. -/
def RESERVE_SOL : ℚ := 1/100

/-- `GAS_THRESHOLD` in the holder-scanning module: SOL spent must exceed
this for a transaction to count as a swap. -/
def GAS_THRESHOLD : ℚ := 1/1000

/-- `COOLDOWN_CYCLES` in the holder-scanning module. -/
def COOLDOWN_CYCLES : Int := 2

/-- `MIN_VALUE_SOL` inside `getHolders`: the de-minimis floor on the
current value of a holder. -/
def MIN_VALUE_SOL : ℚ := 1/1000

/-- The literal `0.001` dust check on the bonding-curve balance inside
`withdrawPumpFunFees`. -/
def CURVE_DUST_SOL : ℚ := 1/1000

/-- Default of `CONFIG.MIN_FEE_SOL` (`config.ts`): 0.005 SOL. -/
def DEFAULT_MIN_FEE_SOL : ℚ := 1/200

/-! Winner cooldown (`recentWinners` map, `recordWinner`, `isOnCooldown`). -/

abbrev Wallet := String

/-- The `recentWinners` JavaScript `Map`, as an association list; the
most recently recorded binding for a wallet is found first, matching
`Map.set` overwrite semantics under `Map.get`. -/
abbrev CooldownMap := List (Wallet × Int)

/-- `recordWinner(wallet, cycle)`: `recentWinners.set(wallet, cycle)`. -/
def recordWinner (m : CooldownMap) (w : Wallet) (cycle : Int) : CooldownMap :=
  (w, cycle) :: m

/-- `recentWinners.get(wallet)`. -/
def lookupWinner (m : CooldownMap) (w : Wallet) : Option Int :=
  (m.find? fun e => decide (e.1 = w)).map (fun e => e.2)

/-- `isOnCooldown(wallet, currentCycle)`.  The source reads
`const wonAt = recentWinners.get(wallet); if (!wonAt) return false;
return (currentCycle - wonAt) <= COOLDOWN_CYCLES;`.  The JavaScript
falsy test `!wonAt` is true both for a missing entry and for a recorded
cycle number `0`. -/
def isOnCooldown (m : CooldownMap) (w : Wallet) (currentCycle : Int) : Bool :=
  match lookupWinner m w with
  | none => false
  | some wonAt =>
      if wonAt = 0 then false
      else decide (currentCycle - wonAt ≤ COOLDOWN_CYCLES)

/-! Swap-only purchase history (`getSwapHistory`). -/

/-- One parsed transaction of a wallet, reduced to the two quantities
`getSwapHistory` extracts: the tracked-token balance change and the SOL
spent (pre SOL balance minus post SOL balance). -/
structure TxRecord where
  tokenDelta : ℚ
  solSpent : ℚ
deriving DecidableEq

/-- The `SwapHistory` result record of `getSwapHistory`. -/
structure SwapHistory where
  totalSolSpent : ℚ
  totalTokensBought : ℚ
deriving DecidableEq

/-- One iteration of the signature loop in `getSwapHistory`: a
transaction is accumulated iff `tokenDelta > 0` (the `continue` guard)
and `solSpent > GAS_THRESHOLD`. -/
def swapStep (acc : SwapHistory) (t : TxRecord) : SwapHistory :=
  if 0 < t.tokenDelta ∧ GAS_THRESHOLD < t.solSpent then
    ⟨acc.totalSolSpent + t.solSpent, acc.totalTokensBought + t.tokenDelta⟩
  else acc

/-- `getSwapHistory` over an already-fetched window of transactions. -/
def getSwapHistory (txs : List TxRecord) : SwapHistory :=
  txs.foldl swapStep ⟨0, 0⟩

/-- `getSwapHistory` including its outer `try`/`catch`: when the
activity window cannot be fetched at all the totals stay `{0, 0}`. -/
def fetchSwapHistory : Option (List TxRecord) → SwapHistory
  | none => ⟨0, 0⟩
  | some txs => getSwapHistory txs

/-! Price fetch (`getPrice`). -/

/-- `getPrice`: the Jupiter response reduced to an optional price.  A
fetch failure or an absent/zero price field yields `0` (the source
parses `price || "0"` and returns `0` from its `catch`). -/
def getPrice : Option ℚ → ℚ
  | none => 0
  | some p => p

/-! Holder scanning and PnL ranking (`getHolders`). -/

/-- The `EXCLUDED` wallet set. -/
def EXCLUDED : List Wallet :=
  ["11111111111111111111111111111111",
   "TokenkegQfeZyiNwAJbNbGKPFXCWuBvf9Ss623VQ5DA",
   "ATokenGPvbdGVxr1b2hvZbsiqW5xWH25efTNsLJA8knL",
   "1nc1nerator11111111111111111111111111111111",
   "5Q544fKrFoe6tsEbD7S8EmxGTJYAKtTVhAW5Q5pge4j1",
   "6EF8rrecthR5Dkzon8Nwu78hRvfCKubJ14M5uBEwF6P"]

/-- One parsed token account from `getParsedProgramAccounts`. -/
structure TokenAccount where
  owner : Wallet
  ata : String
  balance : ℚ
  balanceRaw : Int
deriving DecidableEq

/-- The `Holder` interface of the holder-scanning module. -/
structure Holder where
  wallet : Wallet
  ata : String
  balance : ℚ
  balanceRaw : Int
  costBasis : ℚ
  currentValue : ℚ
  pnl : ℚ
  swapBought : ℚ
  retainedRatio : ℚ
deriving DecidableEq

/-- The derived fields computed in the loop body of `getHolders`, from
the source lines `retainedRatio = Math.min(1, balance /
totalTokensBought)`, `effectiveBalance = Math.min(balance,
totalTokensBought)`, `adjustedCostBasis = totalSolSpent ×
retainedRatio`, `currentValue = effectiveBalance × price`,
`pnl = currentValue - adjustedCostBasis` (intermediate constants
inlined). -/
def holderOf (H : SwapHistory) (price : ℚ) (a : TokenAccount) : Holder :=
  { wallet := a.owner, ata := a.ata, balance := a.balance,
    balanceRaw := a.balanceRaw,
    costBasis := H.totalSolSpent * min 1 (a.balance / H.totalTokensBought),
    currentValue := min a.balance H.totalTokensBought * price,
    pnl := min a.balance H.totalTokensBought * price -
      H.totalSolSpent * min 1 (a.balance / H.totalTokensBought),
    swapBought := H.totalTokensBought,
    retainedRatio := min 1 (a.balance / H.totalTokensBought) }

/-- The body of the per-account loop of `getHolders`: the `continue`
guards (non-positive balance, excluded owner, bot wallet, empty swap
history) return `none`; otherwise the derived fields are computed
exactly as in the source and the `Holder` record is produced. -/
def mkHolder? (hist : Wallet → Option (List TxRecord)) (botWallet : Wallet)
    (price : ℚ) (a : TokenAccount) : Option Holder :=
  if a.balance ≤ 0 ∨ a.owner ∈ EXCLUDED ∨ a.owner = botWallet then none
  else if (fetchSwapHistory (hist a.owner)).totalTokensBought ≤ 0 ∨
          (fetchSwapHistory (hist a.owner)).totalSolSpent ≤ 0 then none
  else some (holderOf (fetchSwapHistory (hist a.owner)) price a)

/-- The read-only collaborators of `getHolders`: the parsed token
accounts, the Jupiter price response, the bot wallet address and the
per-owner transaction windows. -/
structure HoldersEnv where
  accounts : List TokenAccount
  priceResp : Option ℚ
  botWallet : Wallet
  hist : Wallet → Option (List TxRecord)

/-- The `holders` array accumulated by the scan loop of `getHolders`. -/
def scanHolders (env : HoldersEnv) : List Holder :=
  env.accounts.filterMap (mkHolder? env.hist env.botWallet (getPrice env.priceResp))

/-- The eligibility filter of `getHolders`: de-minimis current value,
then the cooldown check (only applied when a cycle number was passed). -/
def eligibleHolder (m : CooldownMap) (currentCycle : Option Int) (h : Holder) : Bool :=
  if h.currentValue < MIN_VALUE_SOL then false
  else
    match currentCycle with
    | none => true
    | some c => ! isOnCooldown m h.wallet c

/-- The comparison relation of `eligible.sort((a, b) => a.pnl - b.pnl)`. -/
def pnlLE (a b : Holder) : Prop := a.pnl ≤ b.pnl

instance : DecidableRel pnlLE := fun a b => inferInstanceAs (Decidable (a.pnl ≤ b.pnl))

instance : IsTotal Holder pnlLE := ⟨fun a b => le_total a.pnl b.pnl⟩

instance : IsTrans Holder pnlLE := ⟨fun _ _ _ hab hbc => le_trans hab hbc⟩

/-- `getHolders(conn, currentCycle)`: scan, filter, then the stable
ascending sort by `pnl` (ECMAScript `Array.prototype.sort` is stable;
insertion sort with a non-strict comparison models it exactly). -/
def getHolders (env : HoldersEnv) (m : CooldownMap) (currentCycle : Option Int) :
    List Holder :=
  List.insertionSort pnlLE ((scanHolders env).filter (eligibleHolder m currentCycle))

/-! Fee claiming (`claimFees`, `withdrawPumpFunFees`). -/

/-- The external facts `claimFees` observes in one cycle: which state
the fee-accrual venue is in, the bonding-curve balance, whether the
withdraw transaction confirms, the wallet balances read afterwards, and
the configured minimum threshold. -/
structure FeeEnv where
  onBondingCurve : Bool
  curveAccountExists : Bool
  curveBalance : ℚ
  withdrawSucceeds : Bool
  balanceAfterWithdraw : ℚ
  walletBalance : ℚ
  minFeeSol : ℚ
deriving DecidableEq

/-- `withdrawPumpFunFees`: missing curve account, a curve balance below
the 0.001 dust check, or a failed withdrawal give `0`; otherwise the
wallet balance after the withdrawal minus the gas reserve, clamped at
zero, is returned.  Note that no `MIN_FEE_SOL` comparison occurs on
this path. -/
def withdrawPumpFunFees (e : FeeEnv) : ℚ :=
  if ¬ e.curveAccountExists then 0
  else if e.curveBalance < CURVE_DUST_SOL then 0
  else if ¬ e.withdrawSucceeds then 0
  else max 0 (e.balanceAfterWithdraw - RESERVE_SOL)

/-- `claimFees`: bonding-curve state delegates to
`withdrawPumpFunFees`; migrated state reads the wallet balance,
subtracts the gas reserve, clamps at zero, and returns `0` when the
result is below `MIN_FEE_SOL`. -/
def claimFees (e : FeeEnv) : ℚ :=
  if e.onBondingCurve then withdrawPumpFunFees e
  else
    let available := max 0 (e.walletBalance - RESERVE_SOL)
    if available < e.minFeeSol then 0 else available

/-! Distribution (`distribute` in `distribute.ts`). -/

/-- The 50/50 split of `distribute`: `toSend = totalRaw / 2n` (integer
division) and `toBurn = totalRaw - toSend`. -/
def splitAmount (total : Int) : Int × Int := (total / 2, total - total / 2)

/-- The externally visible ledger events of one `distribute` run, in
submission order.  Both destruction methods of the source (SPL burn and
dead-wallet transfer) are a single burn transaction sequenced after the
recipient transfer, so they share one event shape here. -/
inductive DistEvent
  | createRecipientAccount
  | sendAttempt
  | sendConfirmed
  | burnAttempt
  | burnConfirmed
deriving DecidableEq

/-- Result of one `distribute` run: the ordered event trace, the raw
tokens still sitting in the operator account afterwards, and whether
the run returned normally (`false` models the thrown confirmation
failure). -/
structure DistResult where
  events : List DistEvent
  operatorRemaining : Int
  success : Bool
deriving DecidableEq

/-- `distribute(conn, payer, recipientWallet, totalRaw, decimals)`.
The transfer transaction (optionally carrying the recipient-account
creation) is sent and confirmed first; only then is the burn
transaction built and sent.  A failed confirmation throws, which ends
the run with the corresponding tokens still held by the operator. -/
def distribute (needsRecipientAccount sendConfirms burnConfirms : Bool)
    (totalRaw : Int) : DistResult :=
  if ¬ sendConfirms then
    ⟨(if needsRecipientAccount then [DistEvent.createRecipientAccount] else []) ++
       [DistEvent.sendAttempt], totalRaw, false⟩
  else if ¬ burnConfirms then
    ⟨(if needsRecipientAccount then [DistEvent.createRecipientAccount] else []) ++
       [DistEvent.sendAttempt, DistEvent.sendConfirmed, DistEvent.burnAttempt],
     totalRaw - (splitAmount totalRaw).1, false⟩
  else
    ⟨(if needsRecipientAccount then [DistEvent.createRecipientAccount] else []) ++
       [DistEvent.sendAttempt, DistEvent.sendConfirmed,
        DistEvent.burnAttempt, DistEvent.burnConfirmed],
     totalRaw - (splitAmount totalRaw).1 - (splitAmount totalRaw).2, true⟩

/-! The cycle driver (`runCycle` in `index.ts`). -/

/-- Everything one `runCycle` invocation observes from outside:
the holder-scan collaborators, the cooldown map carried across cycles,
the current cycle number (already incremented), the fee-claim facts,
the token amount `buyTokens` returns, and the distribution outcomes. -/
structure CycleEnv where
  henv : HoldersEnv
  cooldown : CooldownMap
  cycleNumber : Int
  fee : FeeEnv
  tokensReceived : Int
  needsRecipientAccount : Bool
  sendConfirms : Bool
  burnConfirms : Bool

/-- The pipeline stages of `runCycle` that issue ledger-mutating or
venue calls, for tracing which steps a cycle reached. -/
inductive CycleStep
  | claimStep
  | buyStep
  | distributeStep
deriving DecidableEq

/-- Result of one `runCycle` invocation: the pipeline stages reached,
the cooldown map afterwards, and whether the cycle fully completed. -/
structure CycleResult where
  steps : List CycleStep
  cooldown : CooldownMap
  completed : Bool

/-- `runCycle`: rank holders, stop on no holders or a non-negative best
PnL, claim fees, stop on a non-positive amount, buy, stop on zero
tokens, distribute, and only after a successful distribution record the
winner for the cooldown.  A distribution failure is caught at the cycle
boundary (the `try`/`catch` of the source), leaving the map unchanged. -/
def runCycle (e : CycleEnv) : CycleResult :=
  match getHolders e.henv e.cooldown (some e.cycleNumber) with
  | [] => ⟨[], e.cooldown, false⟩
  | topLoser :: _ =>
      if 0 ≤ topLoser.pnl then ⟨[], e.cooldown, false⟩
      else if claimFees e.fee ≤ 0 then ⟨[CycleStep.claimStep], e.cooldown, false⟩
      else if e.tokensReceived = 0 then
        ⟨[CycleStep.claimStep, CycleStep.buyStep], e.cooldown, false⟩
      else if (distribute e.needsRecipientAccount e.sendConfirms
          e.burnConfirms e.tokensReceived).success then
        ⟨[CycleStep.claimStep, CycleStep.buyStep, CycleStep.distributeStep],
         recordWinner e.cooldown topLoser.wallet e.cycleNumber, true⟩
      else
        ⟨[CycleStep.claimStep, CycleStep.buyStep, CycleStep.distributeStep],
         e.cooldown, false⟩

/-! Concrete example data, used by the witness and counterexample
theorems below. -/

/-- A genuine purchase: 1000 tokens for 50 SOL. -/
def exTx : TxRecord := ⟨1000, 50⟩

/-- A holder account with balance 300 of the tracked token. -/
def exAccount : TokenAccount :=
  { owner := "w1", ata := "ata1", balance := 300, balanceRaw := 300000000 }

/-- Transaction windows: wallet `w1` bought 1000 tokens for 50 SOL;
every other wallet has no fetchable window. -/
def exHist : Wallet → Option (List TxRecord) :=
  fun w => if w = "w1" then some [exTx] else none

/-- A scan environment holding the single account of `w1`, at price
0.01 SOL per token. -/
def exHoldersEnv : HoldersEnv :=
  { accounts := [exAccount], priceResp := some (1/100), botWallet := "",
    hist := exHist }

/-- The holder record `getHolders` derives from `exAccount`. -/
def exRecord : Holder :=
  ⟨"w1", "ata1", 300, 300000000, 15, 3, -12, 1000, 3/10⟩

/-- A CURVE_ACTIVE fee environment: curve balance 0.002 SOL passes the
0.001 dust check, the withdrawal confirms, and the wallet then holds
0.012 SOL, so 0.002 SOL is usable — positive but below the configured
minimum of 0.005 SOL. -/
def curveFeeEnv : FeeEnv :=
  { onBondingCurve := true, curveAccountExists := true,
    curveBalance := 2/1000, withdrawSucceeds := true,
    balanceAfterWithdraw := 12/1000, walletBalance := 0,
    minFeeSol := DEFAULT_MIN_FEE_SOL }

/-- A MIGRATED fee environment with the same usable amount 0.002 SOL. -/
def migratedFeeEnv : FeeEnv :=
  { onBondingCurve := false, curveAccountExists := false,
    curveBalance := 0, withdrawSucceeds := false,
    balanceAfterWithdraw := 0, walletBalance := 12/1000,
    minFeeSol := DEFAULT_MIN_FEE_SOL }

/-- A full cycle in the CURVE_ACTIVE state with an eligible loser and
every downstream step succeeding. -/
def curveCycleEnv : CycleEnv :=
  { henv := exHoldersEnv, cooldown := [], cycleNumber := 1,
    fee := curveFeeEnv, tokensReceived := 1000,
    needsRecipientAccount := false, sendConfirms := true,
    burnConfirms := true }

/-- A cycle that skips immediately: no token accounts exist. -/
def emptyCycleEnv : CycleEnv :=
  { henv := { accounts := [], priceResp := some (1/100), botWallet := "",
              hist := exHist },
    cooldown := [], cycleNumber := 1, fee := migratedFeeEnv,
    tokensReceived := 1000, needsRecipientAccount := false,
    sendConfirms := true, burnConfirms := true }

/-! Helper lemmas. -/

/-- Membership in the scanned holder list comes from some account via
`mkHolder?`. -/
theorem mem_scanHolders {env : HoldersEnv} {h : Holder} :
    h ∈ scanHolders env ↔
      ∃ a ∈ env.accounts,
        mkHolder? env.hist env.botWallet (getPrice env.priceResp) a = some h := by
  simp [scanHolders, List.mem_filterMap]

/-- The field equations of a holder record produced by `mkHolder?`. -/
theorem mkHolder_fields {hist : Wallet → Option (List TxRecord)} {bw : Wallet}
    {price : ℚ} {a : TokenAccount} {h : Holder}
    (hh : mkHolder? hist bw price a = some h) :
    h.wallet = a.owner ∧
    h.balance = a.balance ∧
    h.swapBought = (fetchSwapHistory (hist a.owner)).totalTokensBought ∧
    h.retainedRatio = min 1 (a.balance / h.swapBought) ∧
    h.costBasis = (fetchSwapHistory (hist a.owner)).totalSolSpent * h.retainedRatio ∧
    h.currentValue = min a.balance h.swapBought * price ∧
    h.pnl = h.currentValue - h.costBasis := by
  unfold mkHolder? at hh
  split_ifs at hh
  cases hh
  simp [holderOf]

/-- A wallet whose fetched swap history shows no genuine purchases is
rejected by `mkHolder?`. -/
theorem mkHolder_none_of_no_history {hist : Wallet → Option (List TxRecord)}
    {bw : Wallet} {price : ℚ} {a : TokenAccount}
    (hz : (fetchSwapHistory (hist a.owner)).totalTokensBought ≤ 0 ∨
          (fetchSwapHistory (hist a.owner)).totalSolSpent ≤ 0) :
    mkHolder? hist bw price a = none := by
  unfold mkHolder?
  split_ifs
  all_goals rfl

/-- The ranked output is a permutation of the filtered scan list. -/
theorem getHolders_perm (env : HoldersEnv) (m : CooldownMap) (c : Option Int) :
    List.Perm (getHolders env m c)
      ((scanHolders env).filter (eligibleHolder m c)) :=
  List.perm_insertionSort pnlLE _

/-- Every ranked holder is a scanned holder that passed the filter. -/
theorem mem_getHolders {env : HoldersEnv} {m : CooldownMap} {c : Option Int}
    {h : Holder} (hm : h ∈ getHolders env m c) :
    h ∈ scanHolders env ∧ eligibleHolder m c h = true := by
  have := (getHolders_perm env m c).mem_iff.mp hm
  exact List.mem_filter.mp this

/-- Conversely, every scanned holder passing the filter is ranked. -/
theorem mem_getHolders_of (env : HoldersEnv) (m : CooldownMap) (c : Option Int)
    {h : Holder} (hs : h ∈ scanHolders env) (he : eligibleHolder m c h = true) :
    h ∈ getHolders env m c :=
  (getHolders_perm env m c).mem_iff.mpr (List.mem_filter.mpr ⟨hs, he⟩)

/-- A winner recorded with a nonzero cycle number is on cooldown
exactly while `currentCycle - cycleNumberWon ≤ COOLDOWN_CYCLES`. -/
theorem isOnCooldown_recordWinner (m : CooldownMap) (w : Wallet) (k c : Int)
    (hk : k ≠ 0) :
    isOnCooldown (recordWinner m w k) w c = decide (c - k ≤ COOLDOWN_CYCLES) := by
  unfold isOnCooldown lookupWinner recordWinner
  simp [List.find?, hk]

/-! Claim theorems. -/

/-- C6: for every positive integer total, the distribution split
satisfies `toSend + toBurn = total` exactly, with
`toBurn - toSend ∈ {0, 1}` and hence `toBurn ≥ toSend`. -/
theorem claim_C6_split (total : Int) (hpos : 0 < total) :
    (splitAmount total).1 + (splitAmount total).2 = total ∧
    ((splitAmount total).2 - (splitAmount total).1 = 0 ∨
     (splitAmount total).2 - (splitAmount total).1 = 1) ∧
    (splitAmount total).1 ≤ (splitAmount total).2 := by
  unfold splitAmount
  refine ⟨by omega, by omega, by omega⟩

/-- Witness for C6 at total = 7: the split is (3, 4). -/
theorem claim_C6_split_witness :
    (splitAmount 7).1 + (splitAmount 7).2 = 7 ∧
    ((splitAmount 7).2 - (splitAmount 7).1 = 0 ∨
     (splitAmount 7).2 - (splitAmount 7).1 = 1) ∧
    (splitAmount 7).1 ≤ (splitAmount 7).2 :=
  claim_C6_split 7 (by decide)

/-- C10: a win recorded with cycle number 0 is invisible to the
cooldown check — `isOnCooldown` returns `false` at every subsequent
cycle, even though the cooldown formula `currentCycle - wonAt ≤ 2`
would hold e.g. at cycle 1. -/
theorem claim_C10_zero_cycle (m : CooldownMap) (w : Wallet) (c : Int) :
    isOnCooldown (recordWinner m w 0) w c = false ∧
    (1 - (0 : Int) ≤ COOLDOWN_CYCLES) := by
  constructor
  · unfold isOnCooldown lookupWinner recordWinner
    simp [List.find?]
  · decide

/-- C9: the cooldown map is updated only by a fully successful
distribution.  A cycle that skips or fails at any pipeline step leaves
the map exactly unchanged; a completed cycle implies the distribution
succeeded and the map gained exactly the selected top loser at the
current cycle number. -/
theorem claim_C9_cooldown_after_success (e : CycleEnv) :
    ((runCycle e).completed = false → (runCycle e).cooldown = e.cooldown) ∧
    ((runCycle e).completed = true →
      (distribute e.needsRecipientAccount e.sendConfirms e.burnConfirms
          e.tokensReceived).success = true ∧
      ∃ top rest, getHolders e.henv e.cooldown (some e.cycleNumber) = top :: rest ∧
        (runCycle e).cooldown = recordWinner e.cooldown top.wallet e.cycleNumber) := by
  cases hg : getHolders e.henv e.cooldown (some e.cycleNumber) with
  | nil => simp [runCycle, hg]
  | cons top rest =>
      by_cases hp : 0 ≤ top.pnl
      · simp [runCycle, hg, hp]
      · by_cases hf : claimFees e.fee ≤ 0
        · simp [runCycle, hg, hp, hf]
        · by_cases ht : e.tokensReceived = 0
          · simp [runCycle, hg, hp, hf, ht]
          · by_cases hd : (distribute e.needsRecipientAccount e.sendConfirms
                e.burnConfirms e.tokensReceived).success = true
            · refine ⟨fun hc => ?_, fun _ => ⟨hd, top, rest, rfl, ?_⟩⟩
              · simp [runCycle, hg, hp, hf, ht, hd] at hc
              · simp [runCycle, hg, hp, hf, ht, hd]
            · simp [runCycle, hg, hp, hf, ht, hd]

/-- Witness for C9: a cycle with no token accounts at all skips and
leaves the cooldown map unchanged. -/
theorem claim_C9_cooldown_after_success_witness :
    (runCycle emptyCycleEnv).cooldown = emptyCycleEnv.cooldown :=
  (claim_C9_cooldown_after_success emptyCycleEnv).1 (by
    norm_num [runCycle, getHolders, scanHolders, emptyCycleEnv,
      List.insertionSort, List.filterMap, List.filter])

/-- C8: in every distribution the burn is attempted only after the
transfer to the recipient has confirmed (the trace before the first
burn attempt contains a confirmed send), and if the transfer fails
nothing is burned, the run fails, and the full amount remains in the
operator account. -/
theorem claim_C8_burn_after_send (na s b : Bool) (total : Int) :
    (DistEvent.burnAttempt ∈ (distribute na s b total).events →
      DistEvent.sendConfirmed ∈
        (distribute na s b total).events.takeWhile
          (fun ev => decide (ev ≠ DistEvent.burnAttempt))) ∧
    (s = false →
      DistEvent.burnAttempt ∉ (distribute na s b total).events ∧
      DistEvent.burnConfirmed ∉ (distribute na s b total).events ∧
      (distribute na s b total).success = false ∧
      (distribute na s b total).operatorRemaining = total) := by
  cases na <;> cases s <;> cases b <;>
    simp [distribute, List.takeWhile]

/-- Witness for C8: with both confirmations succeeding, the burn
attempt occurs and the prefix before it contains the confirmed send. -/
theorem claim_C8_burn_after_send_witness :
    DistEvent.sendConfirmed ∈
      (distribute false true true 4).events.takeWhile
        (fun ev => decide (ev ≠ DistEvent.burnAttempt)) :=
  (claim_C8_burn_after_send false true true 4).1 (by simp [distribute])

/-- C1 (amended): in the MIGRATED state a positive usable amount below
`MIN_FEE_SOL` makes the claimer return 0, and any cycle whose fee claim
returns a non-positive amount skips without acquisition or
distribution; but in the CURVE_ACTIVE state the `MIN_FEE_SOL`
threshold is never applied — a successful withdrawal returns the full
clamped amount even when it is positive and below the threshold. -/
theorem claim_C1_min_fee_threshold :
    (∀ e : FeeEnv, e.onBondingCurve = false →
      0 < max 0 (e.walletBalance - RESERVE_SOL) →
      max 0 (e.walletBalance - RESERVE_SOL) < e.minFeeSol →
      claimFees e = 0) ∧
    (∀ e : FeeEnv, e.onBondingCurve = true → e.curveAccountExists = true →
      ¬ e.curveBalance < CURVE_DUST_SOL → e.withdrawSucceeds = true →
      claimFees e = max 0 (e.balanceAfterWithdraw - RESERVE_SOL)) ∧
    (∀ e : CycleEnv, claimFees e.fee ≤ 0 →
      CycleStep.buyStep ∉ (runCycle e).steps ∧
      CycleStep.distributeStep ∉ (runCycle e).steps ∧
      (runCycle e).cooldown = e.cooldown) := by
  refine ⟨?_, ?_, ?_⟩
  · intro e he _ hlt
    simp only [claimFees, he, Bool.false_eq_true, if_false]
    exact if_pos hlt
  · intro e he hex hdust hw
    simp [claimFees, withdrawPumpFunFees, he, hex, hdust, hw]
  · intro e hfee
    cases hg : getHolders e.henv e.cooldown (some e.cycleNumber) with
    | nil => simp [runCycle, hg]
    | cons top rest =>
        by_cases hp : 0 ≤ top.pnl
        · simp [runCycle, hg, hp]
        · simp [runCycle, hg, hp, hfee]

/-- Witness for C1: a migrated-state claim of 0.002 usable SOL (below
the default 0.005 threshold) returns 0. -/
theorem claim_C1_min_fee_threshold_witness :
    claimFees migratedFeeEnv = 0 :=
  claim_C1_min_fee_threshold.1 migratedFeeEnv rfl
    (by norm_num [migratedFeeEnv, RESERVE_SOL])
    (by norm_num [migratedFeeEnv, RESERVE_SOL, DEFAULT_MIN_FEE_SOL])

/-- Counterexample for C1 as stated: in the CURVE_ACTIVE state a
usable amount of 0.002 SOL — positive and below the configured
0.005 SOL minimum — is returned as-is instead of 0, and the cycle
proceeds through acquisition and distribution instead of skipping. -/
theorem claim_C1_counterexample :
    claimFees curveFeeEnv = 1/500 ∧
    (0 : ℚ) < 1/500 ∧
    (1/500 : ℚ) < curveFeeEnv.minFeeSol ∧
    claimFees curveFeeEnv ≠ 0 ∧
    curveCycleEnv.fee = curveFeeEnv ∧
    (runCycle curveCycleEnv).steps =
      [CycleStep.claimStep, CycleStep.buyStep, CycleStep.distributeStep] := by
  refine ⟨?_, by norm_num, ?_, ?_, rfl, ?_⟩
  · norm_num [claimFees, withdrawPumpFunFees, curveFeeEnv, CURVE_DUST_SOL,
      RESERVE_SOL]
  · norm_num [curveFeeEnv, DEFAULT_MIN_FEE_SOL]
  · norm_num [claimFees, withdrawPumpFunFees, curveFeeEnv, CURVE_DUST_SOL,
      RESERVE_SOL]
  · norm_num [runCycle, getHolders, scanHolders, mkHolder?, holderOf,
      fetchSwapHistory, getSwapHistory, swapStep, eligibleHolder, isOnCooldown,
      lookupWinner, getPrice, curveCycleEnv, exHoldersEnv, exAccount, exHist,
      exTx, EXCLUDED, GAS_THRESHOLD, MIN_VALUE_SOL, claimFees,
      withdrawPumpFunFees, curveFeeEnv, CURVE_DUST_SOL, RESERVE_SOL,
      DEFAULT_MIN_FEE_SOL, distribute, splitAmount, recordWinner,
      List.insertionSort, List.orderedInsert, List.filterMap, List.foldl,
      List.filter, List.find?]

/-- A scan environment like `exHoldersEnv` but with the exchange-rate
source unavailable. -/
def zeroPriceEnv : HoldersEnv :=
  { accounts := [exAccount], priceResp := none, botWallet := "",
    hist := exHist }

/-- C2: when the exchange-rate source returns zero or is unavailable
the ranking still completes with price 0: every scanned record has
`currentValue = 0` and `pnl = -adjustedCostBasis`, and the output is
ordered ascending by `pnl`, which is descending by adjusted historical
spend — biggest historical spender first. -/
theorem claim_C2_zero_price (env : HoldersEnv) (m : CooldownMap) (c : Option Int)
    (hresp : env.priceResp = none ∨ env.priceResp = some 0) :
    (∀ h ∈ scanHolders env, h.currentValue = 0 ∧ h.pnl = -h.costBasis) ∧
    (getHolders env m c).Pairwise pnlLE ∧
    (getHolders env m c).Pairwise (fun a b => b.costBasis ≤ a.costBasis) := by
  have hp : getPrice env.priceResp = 0 := by
    rcases hresp with h | h <;> simp [h, getPrice]
  have hmem : ∀ h ∈ scanHolders env, h.currentValue = 0 ∧ h.pnl = -h.costBasis := by
    intro h hm
    obtain ⟨a, _, hmk⟩ := mem_scanHolders.mp hm
    obtain ⟨-, -, -, -, -, hcv, hpnl⟩ := mkHolder_fields hmk
    rw [hp, mul_zero] at hcv
    exact ⟨hcv, by rw [hpnl, hcv, zero_sub]⟩
  refine ⟨hmem, List.sorted_insertionSort pnlLE _, ?_⟩
  have hs : (getHolders env m c).Pairwise pnlLE :=
    List.sorted_insertionSort pnlLE _
  refine hs.imp_of_mem ?_
  intro a b hma hmb hab
  have h1 := hmem a (mem_getHolders hma).1
  have h2 := hmem b (mem_getHolders hmb).1
  have hcb : -a.costBasis ≤ -b.costBasis := by
    rw [← h1.2, ← h2.2]; exact hab
  linarith

/-- Witness for C2: with the price source unavailable, the ranked
output over the example environment is still sorted by `pnl`. -/
theorem claim_C2_zero_price_witness :
    (getHolders zeroPriceEnv [] none).Pairwise pnlLE :=
  (claim_C2_zero_price zeroPriceEnv [] none (Or.inl rfl)).2.1

/-- C3: every holder record produced by the ranker satisfies the
derived-field equations `retainedRatio = min(1, balance / swapBought)`,
`adjustedCostBasis = swapSpent × retainedRatio`, `currentValue =
min(balance, swapBought) × price` and `pnl = currentValue −
adjustedCostBasis`; in particular the account with balance 300, swap
history 1000 bought for 50 spent, at price 0.01, yields retainedRatio
0.3, adjustedCostBasis 15, currentValue 3 and pnl −12. -/
theorem claim_C3_derived_fields :
    (∀ (hist : Wallet → Option (List TxRecord)) (bw : Wallet) (price : ℚ)
        (a : TokenAccount) (h : Holder), mkHolder? hist bw price a = some h →
      h.retainedRatio = min 1 (a.balance / h.swapBought) ∧
      h.costBasis = (fetchSwapHistory (hist a.owner)).totalSolSpent * h.retainedRatio ∧
      h.currentValue = min a.balance h.swapBought * price ∧
      h.pnl = h.currentValue - h.costBasis) ∧
    (∀ (env : HoldersEnv) (m : CooldownMap) (c : Option Int) (h : Holder),
      h ∈ getHolders env m c →
        ∃ a ∈ env.accounts,
          mkHolder? env.hist env.botWallet (getPrice env.priceResp) a = some h) ∧
    (mkHolder? exHist "" (1/100) exAccount = some exRecord ∧
      exRecord.retainedRatio = 3/10 ∧ exRecord.costBasis = 15 ∧
      exRecord.currentValue = 3 ∧ exRecord.pnl = -12) := by
  refine ⟨?_, ?_, ?_, rfl, rfl, rfl, rfl⟩
  · intro hist bw price a h hmk
    obtain ⟨-, -, h3, h4, h5, h6, h7⟩ := mkHolder_fields hmk
    exact ⟨h4, h5, h6, h7⟩
  · intro env m c h hm
    exact mem_scanHolders.mp (mem_getHolders hm).1
  · norm_num [mkHolder?, holderOf, fetchSwapHistory, getSwapHistory, swapStep,
      exAccount, exHist, exTx, exRecord, EXCLUDED, GAS_THRESHOLD]
    all_goals decide

/-- Witness for C3: the derived-field equations instantiated at the
example record. -/
theorem claim_C3_derived_fields_witness :
    exRecord.retainedRatio = min 1 (exAccount.balance / exRecord.swapBought) ∧
    exRecord.costBasis =
      (fetchSwapHistory (exHist exAccount.owner)).totalSolSpent * exRecord.retainedRatio ∧
    exRecord.currentValue = min exAccount.balance exRecord.swapBought * (1/100) ∧
    exRecord.pnl = exRecord.currentValue - exRecord.costBasis :=
  claim_C3_derived_fields.1 exHist "" (1/100) exAccount exRecord
    (by norm_num [mkHolder?, holderOf, fetchSwapHistory, getSwapHistory,
        swapStep, exAccount, exHist, exTx, exRecord, EXCLUDED, GAS_THRESHOLD]
        all_goals decide)

/-- If every transaction of a window spends no more than the gas
threshold, the swap scan accumulates nothing. -/
theorem foldl_swapStep_of_gas (txs : List TxRecord) (acc : SwapHistory)
    (hall : ∀ t ∈ txs, t.solSpent ≤ GAS_THRESHOLD) :
    txs.foldl swapStep acc = acc := by
  induction txs generalizing acc with
  | nil => rfl
  | cons t ts ih =>
      have ht : swapStep acc t = acc := by
        unfold swapStep
        rw [if_neg]
        rintro ⟨-, hgas⟩
        exact absurd hgas (not_lt.mpr (hall t (List.mem_cons_self t ts)))
      rw [List.foldl_cons, ht]
      exact ih acc (fun x hx => hall x (List.mem_cons_of_mem t hx))

/-- C4: a wallet with zero genuine-purchase history (no bought tokens
or no reserve spend) never appears in the ranked output regardless of
balance; in particular, a window whose transactions all spend at most
`GAS_THRESHOLD` (transfers, airdrops) yields the empty history. -/
theorem claim_C4_no_purchase_excluded (env : HoldersEnv) (w : Wallet)
    (hzero : (fetchSwapHistory (env.hist w)).totalTokensBought ≤ 0 ∨
             (fetchSwapHistory (env.hist w)).totalSolSpent ≤ 0) :
    (∀ m c, w ∉ (getHolders env m c).map (fun h => h.wallet)) ∧
    (∀ txs : List TxRecord, (∀ t ∈ txs, t.solSpent ≤ GAS_THRESHOLD) →
      getSwapHistory txs = ⟨0, 0⟩) := by
  constructor
  · intro m c hw
    obtain ⟨h, hm, hwall⟩ := List.mem_map.mp hw
    obtain ⟨a, _, hmk⟩ := mem_scanHolders.mp (mem_getHolders hm).1
    have hown : a.owner = w := by
      rw [← hwall, (mkHolder_fields hmk).1]
    rw [← hown] at hzero
    rw [mkHolder_none_of_no_history hzero] at hmk
    exact Option.noConfusion hmk
  · intro txs hall
    exact foldl_swapStep_of_gas txs ⟨0, 0⟩ hall

/-- Witness for C4: wallet `w2` has no fetchable window, so it is
absent from the example ranked output. -/
theorem claim_C4_no_purchase_excluded_witness :
    "w2" ∉ (getHolders exHoldersEnv [] (some 1)).map (fun h => h.wallet) :=
  (claim_C4_no_purchase_excluded exHoldersEnv "w2" (Or.inl (by decide))).1
    [] (some 1)

/-- Inserting a holder into a list keeps the `pnl`-level subsequences:
the inserted element lands in front of every element of its own `pnl`
class, because the insertion only passes elements with strictly smaller
`pnl`. -/
theorem filter_pnl_orderedInsert (v : ℚ) (x : Holder) (l : List Holder) :
    (List.orderedInsert pnlLE x l).filter (fun h => decide (h.pnl = v)) =
      if x.pnl = v then x :: l.filter (fun h => decide (h.pnl = v))
      else l.filter (fun h => decide (h.pnl = v)) := by
  induction l with
  | nil => by_cases hx : x.pnl = v <;> simp [List.filter, hx]
  | cons y ys ih =>
      by_cases hxy : pnlLE x y
      · by_cases hx : x.pnl = v <;> by_cases hy : y.pnl = v <;>
          simp [List.orderedInsert, hxy, List.filter, hx, hy]
      · have hyx : y.pnl < x.pnl := not_le.mp hxy
        by_cases hx : x.pnl = v
        · have hy : ¬ y.pnl = v := by rw [← hx]; exact ne_of_lt hyx
          simp [List.orderedInsert, hxy, List.filter, hy, ih, hx]
        · by_cases hy : y.pnl = v <;>
            simp [List.orderedInsert, hxy, List.filter, hy, ih, hx]

/-- The stable sort preserves the relative order of equal-`pnl`
holders: filtering any `pnl` class out of the sorted list gives exactly
the same sequence as filtering it out of the input. -/
theorem filter_pnl_insertionSort (v : ℚ) (l : List Holder) :
    (List.insertionSort pnlLE l).filter (fun h => decide (h.pnl = v)) =
      l.filter (fun h => decide (h.pnl = v)) := by
  induction l with
  | nil => rfl
  | cons x xs ih =>
      rw [List.insertionSort, filter_pnl_orderedInsert]
      by_cases hx : x.pnl = v <;> simp [List.filter, hx, ih]

/-- C7: the ranked output is sorted ascending by `pnl`, and the sort is
stable — every `pnl` class appears in exactly its input (scan) order. -/
theorem claim_C7_sorted_stable (env : HoldersEnv) (m : CooldownMap)
    (c : Option Int) :
    (getHolders env m c).Pairwise pnlLE ∧
    (∀ v : ℚ, (getHolders env m c).filter (fun h => decide (h.pnl = v)) =
      ((scanHolders env).filter (eligibleHolder m c)).filter
        (fun h => decide (h.pnl = v))) :=
  ⟨List.sorted_insertionSort pnlLE _, fun v => filter_pnl_insertionSort v _⟩

/-- C5: a wallet that wins cycle `k ≥ 1` is on cooldown — and absent
from the ranked output — at cycles `k+1` and `k+2`, and from cycle
`k+3` onward the cooldown releases it, so an otherwise-eligible holder
record for it is ranked again. -/
theorem claim_C5_cooldown_window (env : HoldersEnv) (m : CooldownMap)
    (w : Wallet) (k : Int) (hk : 1 ≤ k) :
    (∀ c : Int, k + 1 ≤ c → c ≤ k + 2 →
      isOnCooldown (recordWinner m w k) w c = true) ∧
    (∀ c : Int, k + 1 ≤ c → c ≤ k + 2 →
      w ∉ (getHolders env (recordWinner m w k) (some c)).map (fun h => h.wallet)) ∧
    (∀ c : Int, k + 3 ≤ c →
      isOnCooldown (recordWinner m w k) w c = false) ∧
    (∀ c : Int, k + 3 ≤ c → ∀ h ∈ scanHolders env, h.wallet = w →
      ¬ h.currentValue < MIN_VALUE_SOL →
      w ∈ (getHolders env (recordWinner m w k) (some c)).map (fun h => h.wallet)) := by
  have hk0 : k ≠ 0 := by omega
  have hco_true : ∀ c : Int, k + 1 ≤ c → c ≤ k + 2 →
      isOnCooldown (recordWinner m w k) w c = true := by
    intro c h1 h2
    rw [isOnCooldown_recordWinner m w k c hk0]
    simp only [COOLDOWN_CYCLES, decide_eq_true_eq]
    omega
  have hco_false : ∀ c : Int, k + 3 ≤ c →
      isOnCooldown (recordWinner m w k) w c = false := by
    intro c h1
    rw [isOnCooldown_recordWinner m w k c hk0]
    simp only [COOLDOWN_CYCLES, decide_eq_false_iff_not]
    omega
  refine ⟨hco_true, ?_, hco_false, ?_⟩
  · intro c h1 h2 hw
    obtain ⟨h, hm, hwall⟩ := List.mem_map.mp hw
    have he := (mem_getHolders hm).2
    by_cases hcv : h.currentValue < MIN_VALUE_SOL
    · simp [eligibleHolder, hcv] at he
    · simp [eligibleHolder, hcv, hwall, hco_true c h1 h2] at he
  · intro c hc h hs hwall hcv
    have he : eligibleHolder (recordWinner m w k) (some c) h = true := by
      simp [eligibleHolder, hcv, hwall, hco_false c hc]
    exact List.mem_map.mpr
      ⟨h, mem_getHolders_of env (recordWinner m w k) (some c) hs he, hwall⟩

/-- Witness for C5: the example wallet wins cycle 1 and is absent from
the ranked output at cycle 2. -/
theorem claim_C5_cooldown_window_witness :
    "w1" ∉ (getHolders exHoldersEnv (recordWinner [] "w1" 1)
      (some 2)).map (fun h => h.wallet) :=
  (claim_C5_cooldown_window exHoldersEnv [] "w1" 1 (by decide)).2.1 2
    (by decide) (by decide)

end Hope
